import Mathlib

/-!
Verification of the aka-service routing core against its natural-language
specification.  The TypeScript source (src/services/routing.ts and
src/utils/url.ts) is shallowly embedded below: JS strings are Lean `String`s
(manipulated through their character lists), the JS parameter object is an
association list built by an overwrite-in-place assignment, exceptions are
modelled by `Option`/`Except`, and JS truthiness of optional string fields is
made explicit.
-/

/-! ## Character-list utilities (models of JS string methods) -/

/-- Model of `s.split(c)`: splits a character list at every occurrence of the
separator, keeping empty segments, never returning an empty list of pieces. -/
def splitOnChar (c : Char) : List Char → List (List Char)
  | [] => [[]]
  | x :: xs =>
    if x = c then [] :: splitOnChar c xs
    else
      match splitOnChar c xs with
      | [] => [[x]]
      | r :: rs => (x :: r) :: rs

/-- Model of `parts.join(c)`: interleaves the separator between the pieces. -/
def joinWith (c : Char) : List (List Char) → List Char
  | [] => []
  | [p] => p
  | p :: ps => p ++ c :: joinWith c ps

/-! ## Model of `decodeURIComponent`

The ECMAScript `Decode` algorithm scans the input; a `%` must be followed by
two hex digits giving a byte, and byte sequences must form strict UTF-8
(continuation bytes must themselves be percent escapes); any violation throws
`URIError`, modelled here by `none`.  Unescaped characters pass through. -/

/-- Value of a hex digit, `none` for a non-hex character; the bounds are the
ASCII codes of 0-9, A-F and a-f. -/
def hexDigitVal (c : Char) : Option Nat :=
  let n := c.toNat
  if 48 ≤ n && n ≤ 57 then some (n - 48)
  else if 65 ≤ n && n ≤ 70 then some (n - 55)
  else if 97 ≤ n && n ≤ 102 then some (n - 87)
  else none

/-- A token of the decode scan: either a literal character or the byte of a
percent escape. -/
inductive DTok where
  | chr (c : Char)
  | byte (b : Nat)
deriving Repr, DecidableEq

/-- First pass of `decodeURIComponent`: turn `%XX` escapes into byte tokens,
failing on a `%` not followed by two hex digits. -/
def tokenizeEscapes : List Char → Option (List DTok)
  | [] => some []
  | '%' :: h1 :: h2 :: rest =>
    match hexDigitVal h1, hexDigitVal h2 with
    | some a, some b => (tokenizeEscapes rest).map (DTok.byte (a * 16 + b) :: ·)
    | _, _ => none
  | '%' :: _ => none
  | c :: rest => (tokenizeEscapes rest).map (DTok.chr c :: ·)

/-- Is `b` a UTF-8 continuation byte? -/
def isContByte (b : Nat) : Bool := 0x80 ≤ b && b ≤ 0xBF

/-- Second pass of `decodeURIComponent`: strict UTF-8 decoding of byte tokens,
where continuation bytes must themselves come from escapes; overlong forms,
surrogates and out-of-range code points are rejected, as the throwing
behaviour of `URIError` demands. -/
def decodeToks : List DTok → Option (List Char)
  | [] => some []
  | .chr c :: rest => (decodeToks rest).map (c :: ·)
  | .byte b :: rest =>
    if b ≤ 0x7F then (decodeToks rest).map (Char.ofNat b :: ·)
    else if 0xC2 ≤ b ∧ b ≤ 0xDF then
      match rest with
      | .byte b2 :: rest2 =>
        if isContByte b2 then
          (decodeToks rest2).map (Char.ofNat ((b - 0xC0) * 64 + (b2 - 0x80)) :: ·)
        else none
      | _ => none
    else if 0xE0 ≤ b ∧ b ≤ 0xEF then
      match rest with
      | .byte b2 :: .byte b3 :: rest3 =>
        if isContByte b2 && isContByte b3 then
          match (b - 0xE0) * 4096 + (b2 - 0x80) * 64 + (b3 - 0x80), decodeToks rest3 with
          | cp, some cs =>
            if cp < 0x800 ∨ (0xD800 ≤ cp ∧ cp ≤ 0xDFFF) then none
            else some (Char.ofNat cp :: cs)
          | _, none => none
        else none
      | _ => none
    else if 0xF0 ≤ b ∧ b ≤ 0xF4 then
      match rest with
      | .byte b2 :: .byte b3 :: .byte b4 :: rest4 =>
        if isContByte b2 && isContByte b3 && isContByte b4 then
          match (b - 0xF0) * 262144 + (b2 - 0x80) * 4096 + (b3 - 0x80) * 64 + (b4 - 0x80),
              decodeToks rest4 with
          | cp, some cs =>
            if cp < 0x10000 ∨ 0x10FFFF < cp then none
            else some (Char.ofNat cp :: cs)
          | _, none => none
        else none
      | _ => none
    else none

/-- `decodeURIComponent` on a character list; `none` models a thrown
`URIError`. -/
def decodeList (l : List Char) : Option (List Char) :=
  match tokenizeEscapes l with
  | none => none
  | some toks => decodeToks toks

/-- `decodeURIComponent` on strings. -/
def decodeURIComponentModel (s : String) : Option String :=
  (decodeList s.data).map String.mk

/-! ## URLParams: the JS parameter object -/

/-- The per-request parameter map, modelled as an association list in
insertion order, mirroring a plain JS object with string values. -/
abbrev URLParams := List (String × String)

/-- Model of reading `params[k]`: the value of the entry with key `k`,
`undefined` (`none`) when absent. -/
def getParam (params : URLParams) (k : String) : Option String :=
  match params with
  | [] => none
  | p :: rest => if p.1 = k then some p.2 else getParam rest k

/-- Model of the JS assignment `params[k] = v`: overwrite in place when the
key exists (keys are unique by construction), append otherwise. -/
def setParam (params : URLParams) (k v : String) : URLParams :=
  match params with
  | [] => [(k, v)]
  | p :: rest => if p.1 = k then (k, v) :: rest else p :: setParam rest k v

/-! ## URLUtils.parseURLParams (src/utils/url.ts) -/

/-- One iteration of the `forEach` body in `parseURLParams`: split the piece
on `=`, skip an empty key, percent-decode key and (when non-empty) value,
then assign; a decode failure (`none`) models the `URIError` escaping the
whole function. -/
def parsePiece (params : URLParams) (piece : List Char) : Option URLParams :=
  match splitOnChar '=' piece with
  | [] => some params
  | key :: valueParts =>
    if key = [] then some params
    else
      match decodeList key with
      | none => none
      | some dk =>
        match (if joinWith '=' valueParts = [] then some []
               else decodeList (joinWith '=' valueParts)) with
        | none => none
        | some dv => some (setParam params (String.mk dk) (String.mk dv))

/-- The `forEach` loop over the `&`-separated pieces, threading the params
object and propagating a thrown `URIError`. -/
def parsePieces (params : URLParams) : List (List Char) → Option URLParams
  | [] => some params
  | p :: rest =>
    match parsePiece params p with
    | none => none
    | some params2 => parsePieces params2 rest

/-- `URLUtils.parseURLParams` on the character list of the search string:
inputs of length at most one yield the empty map, a leading `?` is stripped,
and the remainder is split on `&` and folded through `parsePiece`. -/
def parseSearch (search : List Char) : Option URLParams :=
  if search.length ≤ 1 then some []
  else
    match search with
    | '?' :: rest => parsePieces [] (splitOnChar '&' rest)
    | other => parsePieces [] (splitOnChar '&' other)

/-- `URLUtils.parseURLParams`; `none` models a thrown `URIError`. -/
def parseURLParams (search : String) : Option URLParams :=
  parseSearch search.data

/-! ## URLUtils.extractPath (src/utils/url.ts) -/

/-- Model of `pathname.startsWith(sl) ? pathname.slice(1) : pathname` for the
leading slash. -/
def stripLeadingSlash : List Char → List Char
  | '/' :: rest => rest
  | other => other

/-- Does `l` begin with the given run of characters? -/
def startsWithChars (l pre : List Char) : Bool := l.take pre.length == pre

/-- Model of the WHATWG URL constructor restricted to what `extractPath`
feeds it (inputs beginning with http:// or https://): the authority extends
to the first of `/ ? #`; an empty authority makes the constructor throw
(`none`); the pathname is the segment from the path-starting `/` up to the
query or fragment, defaulting to a single slash. -/
def urlPathnameModel (url : List Char) : Option (List Char) :=
  let rest := if startsWithChars url "http://".data then url.drop 7 else url.drop 8
  let authority := rest.takeWhile (fun c => c != '/' && c != '?' && c != '#')
  if authority = [] then none
  else
    let p := (rest.drop authority.length).takeWhile (fun c => c != '?' && c != '#')
    some (if p = [] then ['/'] else p)

/-- `URLUtils.extractPath` on character lists: the URL branch with its
`catch` falling back to `url.split(sep)[0]`, the plain branch taking the text
before the first `?`; both strip one leading slash. -/
def extractPathChars (url : List Char) : List Char :=
  if startsWithChars url "http://".data || startsWithChars url "https://".data then
    match urlPathnameModel url with
    | some pathname => stripLeadingSlash pathname
    | none => stripLeadingSlash ((splitOnChar '?' url).headD [])
  else
    stripLeadingSlash ((splitOnChar '?' url).headD [])

/-- `URLUtils.extractPath`: total, the `catch` makes every input yield a
best-effort path. -/
def extractPath (url : String) : String :=
  String.mk (extractPathChars url.data)

/-! ## Model of `new URL(s)` validity (used by `validateRouting`) -/

/-- May `c` appear in a URL scheme after the initial letter? -/
def isSchemeChar (c : Char) : Bool :=
  c.isAlphanum || c == '+' || c == '-' || c == '.'

/-- Model of whether `new URL(s)` succeeds: the input must have a scheme (a
letter followed by scheme characters, ending at the first `:`), and the
special schemes additionally require a non-empty host after the optional
slashes, as the WHATWG parser does.  Rejects scheme-less strings such as
`not-a-valid-url`. -/
def urlIsValid (s : String) : Bool :=
  let l := s.data
  let scheme := l.takeWhile (fun c => c != ':')
  if scheme.length = l.length then false
  else
    match scheme with
    | [] => false
    | c :: cs =>
      if c.isAlpha && cs.all isSchemeChar then
        let low := scheme.map Char.toLower
        if low = "http".data ∨ low = "https".data ∨ low = "ws".data ∨
            low = "wss".data ∨ low = "ftp".data then
          let rest := l.drop (scheme.length + 1)
          let afterSlashes := rest.dropWhile (fun c => c == '/' || c == '\\')
          let host := afterSlashes.takeWhile
            (fun c => c != '/' && c != '?' && c != '#' && c != '\\')
          !host.isEmpty
        else true
      else false

/-! ## Data model (src/types/, configuration schema) -/

/-- A single candidate redirect inside a group (`Routing` in the schema);
the optional dependency fields model the optional TS properties. -/
structure Routing where
  name : String
  dependsOnKey : Option String := none
  dependsOnValue : Option String := none
  redirectTarget : String
deriving Repr, DecidableEq

/-- A named bucket of routing rules (`RoutingGroup` in the schema). -/
structure RoutingGroup where
  name : String
  description : String := ""
  dependsOnKey : Option String := none
  dependsOnValue : Option String := none
  routings : List Routing
deriving Repr, DecidableEq

/-- Optional configuration metadata; informational only. -/
structure ConfigMetadata where
  created : String
  lastModified : String
  author : Option String := none
deriving Repr, DecidableEq

/-- The root configuration entity. -/
structure RoutingConfiguration where
  version : String
  routingGroups : List RoutingGroup
  metadata : Option ConfigMetadata := none
deriving Repr, DecidableEq

/-- The result value of one resolution attempt (`RedirectResult`). -/
structure RedirectResult where
  found : Bool
  targetUrl : Option String := none
  matchedGroup : Option String := none
  matchedRouting : Option String := none
  error : Option String := none
deriving Repr, DecidableEq

/-! ## RoutingService (src/services/routing.ts) -/

/-- JS truthiness of an optional string field: present and non-empty. -/
def isTruthy : Option String → Bool
  | none => false
  | some s => if s = "" then false else true

/-- Model of `s.toLowerCase()` (ASCII case folding, which covers every name
the configuration schema and tests use). -/
def jsToLower (s : String) : String :=
  String.mk (s.data.map Char.toLower)

/-- The loop of `findMatchingGroup`: skip a group whose lowercased name
differs from the lowercased path; when both dependency fields are truthy,
also skip the group unless `params[dependsOnKey] === dependsOnValue`; return
the first surviving group. -/
def findGroupInList (path : String) (params : URLParams) :
    List RoutingGroup → Option RoutingGroup
  | [] => none
  | g :: rest =>
    if jsToLower g.name ≠ jsToLower path then findGroupInList path params rest
    else if isTruthy g.dependsOnKey && isTruthy g.dependsOnValue then
      if getParam params (g.dependsOnKey.getD "") ≠ g.dependsOnValue then
        findGroupInList path params rest
      else some g
    else some g

/-- `RoutingService.findMatchingGroup`, including its null-configuration
guard. -/
def findMatchingGroup (configuration : Option RoutingConfiguration)
    (path : String) (params : URLParams) : Option RoutingGroup :=
  match configuration with
  | none => none
  | some cfg => findGroupInList path params cfg.routingGroups

/-- The scan loop of `findMatchingRouting`: when both dependency fields are
truthy, skip the routing unless `params[dependsOnKey] === dependsOnValue`;
return the first surviving routing. -/
def findRoutingInList (params : URLParams) : List Routing → Option Routing
  | [] => none
  | r :: rest =>
    if isTruthy r.dependsOnKey && isTruthy r.dependsOnValue then
      if getParam params (r.dependsOnKey.getD "") ≠ r.dependsOnValue then
        findRoutingInList params rest
      else some r
    else some r

/-- `RoutingService.findMatchingRouting`: the ordered scan, then the
single-routing fallback for a sole routing with both dependency fields
falsy. -/
def findMatchingRouting (group : RoutingGroup) (params : URLParams) :
    Option Routing :=
  match findRoutingInList params group.routings with
  | some r => some r
  | none =>
    if group.routings.length = 1 then
      match group.routings.head? with
      | some singleRouting =>
        if !(isTruthy singleRouting.dependsOnKey) &&
            !(isTruthy singleRouting.dependsOnValue) then
          some singleRouting
        else none
      | none => none
    else none

/-- `RoutingService.findRedirect`, with the stored configuration made an
explicit argument. -/
def findRedirect (configuration : Option RoutingConfiguration)
    (path : String) (params : URLParams) : RedirectResult :=
  match configuration with
  | none => { found := false, error := some "No routing configuration loaded" }
  | some cfg =>
    match findGroupInList path params cfg.routingGroups with
    | none => { found := false, error := some "No matching routing group found" }
    | some matchingGroup =>
      match findMatchingRouting matchingGroup params with
      | none => { found := false, error := some "No matching routing found" }
      | some matchingRouting =>
        { found := true
          targetUrl := some matchingRouting.redirectTarget
          matchedGroup := some matchingGroup.name
          matchedRouting := some matchingRouting.name }

/-! ## Validation (src/services/routing.ts) -/

/-- `RoutingService.validateRouting`: non-empty name, non-empty redirect
target, and a redirect target accepted by the URL constructor.  (The
`typeof` checks are vacuous in the typed embedding.) -/
def validateRouting (routing : Routing) (groupName : String) :
    Except String Unit :=
  if routing.name = "" then
    .error ("Routing name is required in group \x27" ++ groupName ++ "\x27")
  else if routing.redirectTarget = "" then
    .error ("Redirect target is required for routing \x27" ++ routing.name ++
      "\x27 in group \x27" ++ groupName ++ "\x27")
  else if !(urlIsValid routing.redirectTarget) then
    .error ("Invalid redirect target URL \x27" ++ routing.redirectTarget ++
      "\x27 in routing \x27" ++ routing.name ++ "\x27")
  else .ok ()

/-- The loop validating each routing of a group, failing on the first bad
one. -/
def validateRoutingList (groupName : String) :
    List Routing → Except String Unit
  | [] => .ok ()
  | r :: rest =>
    match validateRouting r groupName with
    | .ok _ => validateRoutingList groupName rest
    | .error e => .error e

/-- `RoutingService.validateRoutingGroup`: non-empty name, non-empty routing
list, then each routing. -/
def validateRoutingGroup (group : RoutingGroup) : Except String Unit :=
  if group.name = "" then
    .error "Routing group name is required and must be a string"
  else if group.routings.length = 0 then
    .error ("Routing group \x27" ++ group.name ++
      "\x27 must have at least one routing")
  else validateRoutingList group.name group.routings

/-- The loop validating each group, failing on the first bad one. -/
def validateGroupList : List RoutingGroup → Except String Unit
  | [] => .ok ()
  | g :: rest =>
    match validateRoutingGroup g with
    | .ok _ => validateGroupList rest
    | .error e => .error e

/-- Model of `new Set(l).size`: the number of distinct elements. -/
def jsSetSize : List String → Nat
  | [] => 0
  | x :: xs => (if x ∈ xs then 0 else 1) + jsSetSize xs

/-- `RoutingService.validateConfiguration`: version present, groups a
non-empty array, every group valid, and finally no duplicate lowercased
group names (the `Set`-size comparison). -/
def validateConfiguration (config : RoutingConfiguration) :
    Except String Unit :=
  if config.version = "" then .error "Configuration version is required"
  else if config.routingGroups.length = 0 then
    .error "At least one routing group is required"
  else
    match validateGroupList config.routingGroups with
    | .error e => .error e
    | .ok _ =>
      if jsSetSize (config.routingGroups.map (fun g => jsToLower g.name)) ≠
          (config.routingGroups.map (fun g => jsToLower g.name)).length then
        .error "Duplicate routing group names found"
      else .ok ()

/-! ## Service state (load/get/isLoaded) -/

/-- The `RoutingService` instance state: the stored configuration. -/
structure RoutingService where
  configuration : Option RoutingConfiguration := none
deriving Repr, DecidableEq

/-- `RoutingService.loadConfiguration`: validate, store on success; on
failure the state is untouched and the rethrown message is returned. -/
def loadConfiguration (s : RoutingService) (config : RoutingConfiguration) :
    RoutingService × Option String :=
  match validateConfiguration config with
  | .ok _ => ({ configuration := some config }, none)
  | .error e => (s, some ("Configuration loading failed: " ++ e))

/-- `RoutingService.getConfiguration`. -/
def getConfiguration (s : RoutingService) : Option RoutingConfiguration :=
  s.configuration

/-- `RoutingService.isConfigurationLoaded`. -/
def isConfigurationLoaded (s : RoutingService) : Bool :=
  s.configuration.isSome

/-! ## Selection predicates and scan lemmas -/

/-- The per-group test performed by the loop body of `findMatchingGroup`:
lowercased name equal to the lowercased path, and, when both dependency
fields are truthy, `params[dependsOnKey] === dependsOnValue`. -/
def groupSelected (g : RoutingGroup) (path : String) (params : URLParams) :
    Bool :=
  if jsToLower g.name ≠ jsToLower path then false
  else if isTruthy g.dependsOnKey && isTruthy g.dependsOnValue then
    if getParam params (g.dependsOnKey.getD "") ≠ g.dependsOnValue then false
    else true
  else true

/-- The per-routing test performed by the scan loop of
`findMatchingRouting`. -/
def routingSelected (r : Routing) (params : URLParams) : Bool :=
  if isTruthy r.dependsOnKey && isTruthy r.dependsOnValue then
    if getParam params (r.dependsOnKey.getD "") ≠ r.dependsOnValue then false
    else true
  else true

theorem findGroupInList_cons (path : String) (params : URLParams)
    (g : RoutingGroup) (gs : List RoutingGroup) :
    findGroupInList path params (g :: gs) =
      if groupSelected g path params then some g
      else findGroupInList path params gs := by
  by_cases h1 : jsToLower g.name ≠ jsToLower path
  · simp [findGroupInList, groupSelected, h1]
  · by_cases h2 : (isTruthy g.dependsOnKey && isTruthy g.dependsOnValue) = true
    · by_cases h3 :
        getParam params (g.dependsOnKey.getD "") ≠ g.dependsOnValue
      · simp [findGroupInList, groupSelected, h1, h2, h3]
      · simp [findGroupInList, groupSelected, h1, h2, h3]
    · simp [findGroupInList, groupSelected, h1, h2]

theorem findRoutingInList_cons (params : URLParams) (r : Routing)
    (rs : List Routing) :
    findRoutingInList params (r :: rs) =
      if routingSelected r params then some r
      else findRoutingInList params rs := by
  by_cases h2 : (isTruthy r.dependsOnKey && isTruthy r.dependsOnValue) = true
  · by_cases h3 : getParam params (r.dependsOnKey.getD "") ≠ r.dependsOnValue
    · simp [findRoutingInList, routingSelected, h2, h3]
    · simp [findRoutingInList, routingSelected, h2, h3]
  · simp [findRoutingInList, routingSelected, h2]

theorem routingSelected_false_iff (r : Routing) (params : URLParams) :
    routingSelected r params = false ↔
      (isTruthy r.dependsOnKey && isTruthy r.dependsOnValue) = true ∧
      getParam params (r.dependsOnKey.getD "") ≠ r.dependsOnValue := by
  unfold routingSelected
  by_cases h2 : (isTruthy r.dependsOnKey && isTruthy r.dependsOnValue) = true
  · by_cases h3 : getParam params (r.dependsOnKey.getD "") ≠ r.dependsOnValue
    · simp [h2, h3]
    · simp [h2, h3]
  · simp [h2]

/-- First-satisfying-entry characterization of the group scan. -/
theorem findGroupInList_eq_some (path : String) (params : URLParams) :
    ∀ (gs : List RoutingGroup) (g : RoutingGroup),
      findGroupInList path params gs = some g →
      ∃ pre post, gs = pre ++ g :: post ∧
        groupSelected g path params = true ∧
        ∀ x ∈ pre, groupSelected x path params = false
  | [], g => by simp [findGroupInList]
  | a :: gs, g => by
    rw [findGroupInList_cons]
    by_cases hsel : groupSelected a path params = true
    · intro h
      simp only [hsel, if_true] at h
      cases h
      exact ⟨[], gs, rfl, hsel, by simp⟩
    · intro h
      simp only [hsel, if_false, Bool.false_eq_true] at h
      obtain ⟨pre, post, hsplit, hg, hpre⟩ :=
        findGroupInList_eq_some path params gs g h
      refine ⟨a :: pre, post, by simp [hsplit], hg, ?_⟩
      intro x hx
      rcases List.mem_cons.mp hx with hxa | hxp
      · subst hxa
        exact Bool.eq_false_iff.mpr hsel
      · exact hpre x hxp

/-- First-satisfying-entry characterization of the routing scan. -/
theorem findRoutingInList_eq_some (params : URLParams) :
    ∀ (rs : List Routing) (r : Routing),
      findRoutingInList params rs = some r →
      ∃ pre post, rs = pre ++ r :: post ∧
        routingSelected r params = true ∧
        ∀ x ∈ pre, routingSelected x params = false
  | [], r => by simp [findRoutingInList]
  | a :: rs, r => by
    rw [findRoutingInList_cons]
    by_cases hsel : routingSelected a params = true
    · intro h
      simp only [hsel, if_true] at h
      cases h
      exact ⟨[], rs, rfl, hsel, by simp⟩
    · intro h
      simp only [hsel, if_false, Bool.false_eq_true] at h
      obtain ⟨pre, post, hsplit, hr, hpre⟩ :=
        findRoutingInList_eq_some params rs r h
      refine ⟨a :: pre, post, by simp [hsplit], hr, ?_⟩
      intro x hx
      rcases List.mem_cons.mp hx with hxa | hxp
      · subst hxa
        exact Bool.eq_false_iff.mpr hsel
      · exact hpre x hxp

/-- The single-routing fallback branch never changes the outcome of
`findMatchingRouting`: whenever the scan fails on a sole routing, that
routing had a truthy dependency pair, which the fallback guard excludes. -/
theorem findMatchingRouting_eq_scan (group : RoutingGroup)
    (params : URLParams) :
    findMatchingRouting group params = findRoutingInList params group.routings := by
  unfold findMatchingRouting
  cases hscan : findRoutingInList params group.routings with
  | some r => rfl
  | none =>
    match hrs : group.routings with
    | [] => simp
    | [r] =>
      rw [hrs] at hscan
      rw [findRoutingInList_cons] at hscan
      by_cases hsel : routingSelected r params = true
      · simp [hsel] at hscan
      · have hfalse : routingSelected r params = false :=
          Bool.eq_false_iff.mpr hsel
        obtain ⟨htruthy, _⟩ := (routingSelected_false_iff r params).mp hfalse
        have hk : isTruthy r.dependsOnKey = true :=
          (Bool.and_eq_true_iff.mp htruthy).1
        simp [hk]
    | r1 :: r2 :: rest => simp

/-! ## Concrete configurations used as witnesses -/

/-- The conditional routing of the specification scenario. -/
def ehBzMitte : Routing :=
  { name := "BzMitte", dependsOnKey := some "oeid",
    dependsOnValue := some "2289", redirectTarget := "https://x/bzmitte" }

/-- The unconditional routing of the specification scenario. -/
def ehDefault : Routing :=
  { name := "Default", redirectTarget := "https://x/default" }

/-- The group of the specification scenario. -/
def ehGroup : RoutingGroup :=
  { name := "Eheschliessung", description := "",
    dependsOnKey := some "leika", dependsOnValue := some "99059001000000",
    routings := [ehBzMitte, ehDefault] }

/-- The configuration of the specification scenario. -/
def ehCfg : RoutingConfiguration :=
  { version := "1", routingGroups := [ehGroup] }

/-- A group whose dependency pair has an empty-string required value. -/
def c2Group : RoutingGroup :=
  { name := "g", description := "", dependsOnKey := some "k",
    dependsOnValue := some "",
    routings := [{ name := "r", redirectTarget := "https://x/a" }] }

/-- Configuration holding `c2Group` alone. -/
def c2Cfg : RoutingConfiguration :=
  { version := "1", routingGroups := [c2Group] }

/-- A routing whose dependency pair has an empty-string required value. -/
def c2Routing : Routing :=
  { name := "r2", dependsOnKey := some "k", dependsOnValue := some "",
    redirectTarget := "https://x/a" }

/-- A sole conditional routing: condition on q=yes. -/
def c4Routing : Routing :=
  { name := "only", dependsOnKey := some "q", dependsOnValue := some "yes",
    redirectTarget := "https://x/only" }

/-- A group whose only routing is conditional. -/
def c4Group : RoutingGroup :=
  { name := "solo", description := "", routings := [c4Routing] }

/-- Configuration holding `c4Group` alone. -/
def c4Cfg : RoutingConfiguration :=
  { version := "1", routingGroups := [c4Group] }

/-! ## C1 -/

/-- C1: for a validated-shape configuration, the group returned by the
matching engine is the first group in declaration order satisfying the
per-group test (case-insensitive name match plus dependency condition), the
routing returned inside it is the first routing in declaration order
satisfying the per-routing test — every earlier entry fails its test — and
`findRedirect` reports exactly this pair. -/
theorem c1_first_match_wins (cfg : RoutingConfiguration) (path : String)
    (params : URLParams) (g : RoutingGroup) (r : Routing)
    (hg : findMatchingGroup (some cfg) path params = some g)
    (hr : findMatchingRouting g params = some r) :
    (∃ pre post, cfg.routingGroups = pre ++ g :: post ∧
      groupSelected g path params = true ∧
      ∀ x ∈ pre, groupSelected x path params = false) ∧
    (∃ pre post, g.routings = pre ++ r :: post ∧
      routingSelected r params = true ∧
      ∀ x ∈ pre, routingSelected x params = false) ∧
    findRedirect (some cfg) path params =
      { found := true, targetUrl := some r.redirectTarget,
        matchedGroup := some g.name, matchedRouting := some r.name } := by
  have hg' : findGroupInList path params cfg.routingGroups = some g := hg
  have hr' : findRoutingInList params g.routings = some r := by
    rw [← findMatchingRouting_eq_scan]; exact hr
  refine ⟨findGroupInList_eq_some path params cfg.routingGroups g hg',
    findRoutingInList_eq_some params g.routings r hr', ?_⟩
  simp [findRedirect, hg', hr]

/-- C1 witness: the scenario configuration at the fully matching input. -/
theorem c1_witness :
    (∃ pre post, ehCfg.routingGroups = pre ++ ehGroup :: post ∧
      groupSelected ehGroup "Eheschliessung"
        [("leika", "99059001000000"), ("oeid", "2289")] = true ∧
      ∀ x ∈ pre, groupSelected x "Eheschliessung"
        [("leika", "99059001000000"), ("oeid", "2289")] = false) ∧
    (∃ pre post, ehGroup.routings = pre ++ ehBzMitte :: post ∧
      routingSelected ehBzMitte
        [("leika", "99059001000000"), ("oeid", "2289")] = true ∧
      ∀ x ∈ pre, routingSelected x
        [("leika", "99059001000000"), ("oeid", "2289")] = false) ∧
    findRedirect (some ehCfg) "Eheschliessung"
        [("leika", "99059001000000"), ("oeid", "2289")] =
      { found := true, targetUrl := some ehBzMitte.redirectTarget,
        matchedGroup := some ehGroup.name,
        matchedRouting := some ehBzMitte.name } :=
  c1_first_match_wins ehCfg "Eheschliessung"
    [("leika", "99059001000000"), ("oeid", "2289")] ehGroup ehBzMitte rfl rfl

/-! ## C2 -/

/-- C2 counterexample: the claim says an entry with `dependsOnKey` set and
`dependsOnValue` the empty string is not selected when the key is absent
from the parameter map; but with an empty parameter map (the key absent) the
group is selected, because the empty string is falsy and the condition check
is skipped. -/
theorem c2_counterexample :
    getParam ([] : URLParams) "k" = none ∧
    findMatchingGroup (some c2Cfg) "g" [] = some c2Group :=
  ⟨rfl, rfl⟩

/-- C2 amended: for every group or routing whose `dependsOnValue` is the
empty string, the dependency condition is ignored (the empty string is
falsy), so the entry passes its selection test regardless of the parameter
map — for groups, provided the name matches the path case-insensitively. -/
theorem c2_empty_value_condition_ignored (g : RoutingGroup) (r : Routing)
    (path : String) (params : URLParams) (k k2 : String)
    (hgk : g.dependsOnKey = some k) (hgv : g.dependsOnValue = some "")
    (hname : jsToLower g.name = jsToLower path)
    (hrk : r.dependsOnKey = some k2) (hrv : r.dependsOnValue = some "") :
    groupSelected g path params = true ∧ routingSelected r params = true := by
  constructor
  · simp [groupSelected, hname, hgv, isTruthy]
  · simp [routingSelected, hrv, isTruthy]

/-- C2 witness: the empty-valued condition entries pass their tests on an
empty parameter map and a differently-cased path. -/
theorem c2_witness :
    groupSelected c2Group "G" [] = true ∧
    routingSelected c2Routing [] = true :=
  c2_empty_value_condition_ignored c2Group c2Routing "G" [] "k" "k"
    rfl rfl (by decide) rfl rfl

/-! ## C4 -/

/-- C4: when the matched group holds exactly one routing, that routing has a
truthy dependency pair, and the parameter map does not satisfy it,
`findRedirect` reports found=false with the no-matching-routing reason — the
single-routing default does not apply to a conditional routing. -/
theorem c4_single_conditional_no_default (cfg : RoutingConfiguration)
    (path : String) (params : URLParams) (g : RoutingGroup) (r : Routing)
    (k v : String)
    (hg : findMatchingGroup (some cfg) path params = some g)
    (hroutings : g.routings = [r])
    (hk : r.dependsOnKey = some k) (hknz : k ≠ "")
    (hv : r.dependsOnValue = some v) (hvnz : v ≠ "")
    (hmiss : getParam params k ≠ some v) :
    findRedirect (some cfg) path params =
      { found := false, error := some "No matching routing found" } := by
  have hsel : routingSelected r params = false := by
    simp [routingSelected, hk, hv, isTruthy, hknz, hvnz, hmiss]
  have hscan : findRoutingInList params g.routings = none := by
    rw [hroutings, findRoutingInList_cons, hsel]
    simp [findRoutingInList]
  have hmr : findMatchingRouting g params = none := by
    rw [findMatchingRouting_eq_scan, hscan]
  have hg' : findGroupInList path params cfg.routingGroups = some g := hg
  simp [findRedirect, hg', hmr]

/-- C4 witness: the sole conditional routing of `c4Cfg` with an empty
parameter map. -/
theorem c4_witness :
    findRedirect (some c4Cfg) "solo" [] =
      { found := false, error := some "No matching routing found" } :=
  c4_single_conditional_no_default c4Cfg "solo" [] c4Group c4Routing
    "q" "yes" rfl rfl rfl (by decide) rfl (by decide) (by decide)

/-! ## C5 -/

/-- C5: the specification scenario — with both parameters the conditional
routing wins, with only the group parameter the default routing wins, and
with a wrong group parameter no group matches. -/
theorem c5_scenario :
    findRedirect (some ehCfg) "Eheschliessung"
        [("leika", "99059001000000"), ("oeid", "2289")] =
      { found := true, targetUrl := some "https://x/bzmitte",
        matchedGroup := some "Eheschliessung",
        matchedRouting := some "BzMitte" } ∧
    findRedirect (some ehCfg) "Eheschliessung" [("leika", "99059001000000")] =
      { found := true, targetUrl := some "https://x/default",
        matchedGroup := some "Eheschliessung",
        matchedRouting := some "Default" } ∧
    findRedirect (some ehCfg) "Eheschliessung" [("leika", "wrong")] =
      { found := false, error := some "No matching routing group found" } :=
  ⟨rfl, rfl, rfl⟩

/-! ## C10 -/

/-- `findMatchingRouting` with the single-routing fallback branch removed:
just the ordered scan. -/
def findMatchingRoutingNoFallback (group : RoutingGroup)
    (params : URLParams) : Option Routing :=
  findRoutingInList params group.routings

/-- C10: the fallback branch never determines the outcome — the function
with the fallback branch removed is extensionally equal to the original. -/
theorem c10_fallback_redundant :
    ∀ (group : RoutingGroup) (params : URLParams),
      findMatchingRouting group params =
        findMatchingRoutingNoFallback group params :=
  fun group params => findMatchingRouting_eq_scan group params

/-! ## Validation lemmas -/

theorem validateRouting_ok_iff (r : Routing) (gn : String) :
    validateRouting r gn = .ok () ↔
      r.name ≠ "" ∧ r.redirectTarget ≠ "" ∧
      urlIsValid r.redirectTarget = true := by
  unfold validateRouting
  by_cases h1 : r.name = ""
  · simp [h1]
  · by_cases h2 : r.redirectTarget = ""
    · simp [h1, h2]
    · by_cases h3 : urlIsValid r.redirectTarget = true
      · simp [h1, h2, h3]
      · simp [h1, h2, h3]

theorem validateRoutingList_ok_iff (gn : String) :
    ∀ rs : List Routing,
      validateRoutingList gn rs = .ok () ↔
        ∀ r ∈ rs, validateRouting r gn = .ok ()
  | [] => by simp [validateRoutingList]
  | r :: rest => by
    cases h : validateRouting r gn with
    | ok u =>
      cases u
      simp [validateRoutingList, h, validateRoutingList_ok_iff gn rest]
    | error e => simp [validateRoutingList, h]

theorem validateRoutingGroup_ok_iff (g : RoutingGroup) :
    validateRoutingGroup g = .ok () ↔
      g.name ≠ "" ∧ g.routings ≠ [] ∧
      ∀ r ∈ g.routings, validateRouting r g.name = .ok () := by
  unfold validateRoutingGroup
  by_cases h1 : g.name = ""
  · simp [h1]
  · by_cases h2 : g.routings.length = 0
    · simp [h1, h2, List.length_eq_zero.mp h2]
    · have : g.routings ≠ [] := by
        intro hnil; exact h2 (by simp [hnil])
      simp [h1, h2, this, validateRoutingList_ok_iff]

theorem validateGroupList_ok_iff :
    ∀ gs : List RoutingGroup,
      validateGroupList gs = .ok () ↔
        ∀ g ∈ gs, validateRoutingGroup g = .ok ()
  | [] => by simp [validateGroupList]
  | g :: rest => by
    cases h : validateRoutingGroup g with
    | ok u =>
      cases u
      simp [validateGroupList, h, validateGroupList_ok_iff rest]
    | error e => simp [validateGroupList, h]

theorem jsSetSize_le (l : List String) : jsSetSize l ≤ l.length := by
  induction l with
  | nil => simp [jsSetSize]
  | cons x xs ih =>
    by_cases hx : x ∈ xs <;> simp [jsSetSize, hx] <;> omega

theorem jsSetSize_eq_iff (l : List String) :
    jsSetSize l = l.length ↔ l.Nodup := by
  induction l with
  | nil => simp [jsSetSize]
  | cons x xs ih =>
    simp only [jsSetSize, List.length_cons, List.nodup_cons]
    by_cases hx : x ∈ xs
    · rw [if_pos hx]
      have hle := jsSetSize_le xs
      constructor
      · intro h; omega
      · intro h; exact absurd hx h.1
    · rw [if_neg hx]
      constructor
      · intro h
        refine ⟨hx, ih.mp ?_⟩
        omega
      · intro h
        have := ih.mpr h.2
        omega

/-- All structural checks of `validateConfiguration` other than the
duplicate-name check, phrased as the invariant the specification promises of
accepted configurations. -/
def groupChecksOK (cfg : RoutingConfiguration) : Prop :=
  cfg.version ≠ "" ∧ cfg.routingGroups ≠ [] ∧
  ∀ g ∈ cfg.routingGroups, g.name ≠ "" ∧ g.routings ≠ [] ∧
    ∀ r ∈ g.routings, r.name ≠ "" ∧ r.redirectTarget ≠ "" ∧
      urlIsValid r.redirectTarget = true

theorem groupChecksOK_of_parts (cfg : RoutingConfiguration)
    (h1 : cfg.version ≠ "") (h2 : ¬cfg.routingGroups.length = 0)
    (h3 : validateGroupList cfg.routingGroups = .ok ()) :
    groupChecksOK cfg := by
  refine ⟨h1, fun hnil => h2 (by simp [hnil]), ?_⟩
  intro g hg
  have hgok := (validateGroupList_ok_iff cfg.routingGroups).mp h3 g hg
  obtain ⟨hn, hr, hall⟩ := (validateRoutingGroup_ok_iff g).mp hgok
  exact ⟨hn, hr, fun r hrm => (validateRouting_ok_iff r g.name).mp (hall r hrm)⟩

/-! ## C7 -/

/-- C7: every configuration accepted by validation has a non-empty group
list, non-empty group names, non-empty routing lists, non-empty routing
names, redirect targets accepted by the URL constructor, and pairwise
distinct lowercased group names; validation fails fast — a per-group error
is reported as is, and the duplicate-name error is produced exactly when all
per-group checks pass and the lowercased names collide, so the duplicate
check runs only after the per-group checks. -/
theorem c7_validation_invariants : ∀ cfg : RoutingConfiguration,
    (validateConfiguration cfg = .ok () →
      groupChecksOK cfg ∧
      (cfg.routingGroups.map (fun g => jsToLower g.name)).Nodup) ∧
    (cfg.version ≠ "" → cfg.routingGroups ≠ [] →
      validateGroupList cfg.routingGroups = .ok () →
      ¬(cfg.routingGroups.map (fun g => jsToLower g.name)).Nodup →
      validateConfiguration cfg =
        .error "Duplicate routing group names found") ∧
    (cfg.version ≠ "" → cfg.routingGroups ≠ [] → ∀ e,
      validateGroupList cfg.routingGroups = .error e →
      validateConfiguration cfg = .error e) := by
  have hred : ∀ cfg : RoutingConfiguration, ¬cfg.version = "" →
      ¬cfg.routingGroups.length = 0 →
      validateGroupList cfg.routingGroups = .ok () →
      validateConfiguration cfg =
        if jsSetSize (cfg.routingGroups.map (fun g => jsToLower g.name)) ≠
            (cfg.routingGroups.map (fun g => jsToLower g.name)).length then
          .error "Duplicate routing group names found"
        else .ok () := by
    intro cfg h1 h2 h3
    unfold validateConfiguration
    rw [if_neg h1, if_neg h2, h3]
  have hrederr : ∀ (cfg : RoutingConfiguration) (e : String),
      ¬cfg.version = "" → ¬cfg.routingGroups.length = 0 →
      validateGroupList cfg.routingGroups = .error e →
      validateConfiguration cfg = .error e := by
    intro cfg e h1 h2 h3
    unfold validateConfiguration
    rw [if_neg h1, if_neg h2, h3]
  intro cfg
  by_cases h1 : cfg.version = ""
  · refine ⟨?_, ?_, ?_⟩
    · intro h; simp [validateConfiguration, h1] at h
    · intro hv; exact absurd h1 hv
    · intro hv; exact absurd h1 hv
  · by_cases h2 : cfg.routingGroups.length = 0
    · have hnil : cfg.routingGroups = [] := List.length_eq_zero.mp h2
      refine ⟨?_, ?_, ?_⟩
      · intro h; simp [validateConfiguration, h1, h2] at h
      · intro _ hne; exact absurd hnil hne
      · intro _ hne; exact absurd hnil hne
    · cases h3 : validateGroupList cfg.routingGroups with
      | error e0 =>
        refine ⟨?_, ?_, ?_⟩
        · intro h
          rw [hrederr cfg e0 h1 h2 h3] at h
          exact Except.noConfusion h
        · intro _ _ hok
          exact Except.noConfusion hok
        · intro _ _ e he
          simp only [Except.error.injEq] at he
          subst he
          exact hrederr cfg e0 h1 h2 h3
      | ok u =>
        cases u
        have hgc := groupChecksOK_of_parts cfg h1 h2 h3
        by_cases h4 :
            jsSetSize (cfg.routingGroups.map (fun g => jsToLower g.name)) =
              (cfg.routingGroups.map (fun g => jsToLower g.name)).length
        · have hnd := (jsSetSize_eq_iff _).mp h4
          refine ⟨fun _ => ⟨hgc, hnd⟩, ?_, ?_⟩
          · intro _ _ _ hnnd; exact absurd hnd hnnd
          · intro _ _ e he
            exact Except.noConfusion he
        · refine ⟨?_, ?_, ?_⟩
          · intro h
            rw [hred cfg h1 h2 h3, if_pos h4] at h
            exact Except.noConfusion h
          · intro _ _ _ _
            rw [hred cfg h1 h2 h3, if_pos h4]
          · intro _ _ e he
            exact Except.noConfusion he

/-- C7 witness: a concrete valid configuration is accepted and enjoys the
invariants. -/
theorem c7_witness :
    groupChecksOK ehCfg ∧
    (ehCfg.routingGroups.map (fun g => jsToLower g.name)).Nodup :=
  (c7_validation_invariants ehCfg).1 rfl

/-! ## C9 -/

/-- C9: a `loadConfiguration` call with a configuration that fails
validation throws (returns the rethrown message) and leaves the stored
configuration unchanged: `getConfiguration`, `isConfigurationLoaded` and
every subsequent `findRedirect` behave as before the failed call. -/
theorem c9_failed_load_preserves_state (s : RoutingService)
    (cfg : RoutingConfiguration) (e : String)
    (h : validateConfiguration cfg = .error e) :
    loadConfiguration s cfg =
      (s, some ("Configuration loading failed: " ++ e)) ∧
    getConfiguration (loadConfiguration s cfg).1 = getConfiguration s ∧
    isConfigurationLoaded (loadConfiguration s cfg).1 =
      isConfigurationLoaded s ∧
    ∀ path params,
      findRedirect (getConfiguration (loadConfiguration s cfg).1) path params =
        findRedirect (getConfiguration s) path params := by
  have hl : loadConfiguration s cfg =
      (s, some ("Configuration loading failed: " ++ e)) := by
    simp [loadConfiguration, h]
  exact ⟨hl, by rw [hl], by rw [hl], fun path params => by rw [hl]⟩

/-- C9 witness: loading a version-less configuration over a loaded service
leaves the service untouched. -/
theorem c9_witness :
    loadConfiguration ⟨some ehCfg⟩ { version := "", routingGroups := [] } =
      (⟨some ehCfg⟩,
        some ("Configuration loading failed: " ++
          "Configuration version is required")) ∧
    getConfiguration
        (loadConfiguration ⟨some ehCfg⟩
          { version := "", routingGroups := [] }).1 =
      getConfiguration ⟨some ehCfg⟩ ∧
    isConfigurationLoaded
        (loadConfiguration ⟨some ehCfg⟩
          { version := "", routingGroups := [] }).1 =
      isConfigurationLoaded ⟨some ehCfg⟩ ∧
    ∀ path params,
      findRedirect
          (getConfiguration
            (loadConfiguration ⟨some ehCfg⟩
              { version := "", routingGroups := [] }).1) path params =
        findRedirect (getConfiguration ⟨some ehCfg⟩) path params :=
  c9_failed_load_preserves_state ⟨some ehCfg⟩
    { version := "", routingGroups := [] }
    "Configuration version is required" rfl

/-! ## C6 -/

theorem groupSelected_path_congr (g : RoutingGroup) (path path2 : String)
    (params : URLParams) (hpath : jsToLower path = jsToLower path2) :
    groupSelected g path params = groupSelected g path2 params := by
  unfold groupSelected
  rw [hpath]

theorem findGroupInList_path_congr (path path2 : String) (params : URLParams)
    (hpath : jsToLower path = jsToLower path2) :
    ∀ gs : List RoutingGroup,
      findGroupInList path params gs = findGroupInList path2 params gs
  | [] => rfl
  | g :: gs => by
    rw [findGroupInList_cons, findGroupInList_cons,
      groupSelected_path_congr g path path2 params hpath,
      findGroupInList_path_congr path path2 params hpath gs]

/-- C6: group-name-to-path comparison is case-insensitive — two paths with
the same lowercasing produce the same selected group — while dependency
values are compared by exact, case-sensitive string equality: any stored
parameter value other than the required one (so also one differing only in
case or surrounding whitespace) makes the entry fail its selection test. -/
theorem c6_case_rules (cfg : Option RoutingConfiguration)
    (path path2 : String) (params : URLParams)
    (g : RoutingGroup) (r : Routing) (k v pv k2 v2 pv2 : String)
    (hpath : jsToLower path = jsToLower path2)
    (hgk : g.dependsOnKey = some k) (hgknz : k ≠ "")
    (hgv : g.dependsOnValue = some v) (hgvnz : v ≠ "")
    (hgp : getParam params k = some pv) (hgne : pv ≠ v)
    (hrk : r.dependsOnKey = some k2) (hrknz : k2 ≠ "")
    (hrv : r.dependsOnValue = some v2) (hrvnz : v2 ≠ "")
    (hrp : getParam params k2 = some pv2) (hrne : pv2 ≠ v2) :
    findMatchingGroup cfg path params = findMatchingGroup cfg path2 params ∧
    groupSelected g path params = false ∧
    routingSelected r params = false := by
  refine ⟨?_, ?_, ?_⟩
  · cases cfg with
    | none => rfl
    | some c =>
      exact findGroupInList_path_congr path path2 params hpath c.routingGroups
  · by_cases hname : jsToLower g.name ≠ jsToLower path
    · simp [groupSelected, hname]
    · simp [groupSelected, hname, hgk, hgv, isTruthy, hgknz, hgvnz, hgp, hgne]
  · simp [routingSelected, hrk, hrv, isTruthy, hrknz, hrvnz, hrp, hrne]

/-- C6 witness: differently-cased paths agree on the scenario configuration,
and wrong-valued parameters fail both the group and the routing test. -/
theorem c6_witness :
    findMatchingGroup (some ehCfg) "EHESCHLIESSUNG"
        [("leika", "wrong"), ("oeid", "99")] =
      findMatchingGroup (some ehCfg) "eheschliessung"
        [("leika", "wrong"), ("oeid", "99")] ∧
    groupSelected ehGroup "EHESCHLIESSUNG"
        [("leika", "wrong"), ("oeid", "99")] = false ∧
    routingSelected ehBzMitte [("leika", "wrong"), ("oeid", "99")] = false :=
  c6_case_rules (some ehCfg) "EHESCHLIESSUNG" "eheschliessung"
    [("leika", "wrong"), ("oeid", "99")] ehGroup ehBzMitte
    "leika" "99059001000000" "wrong" "oeid" "2289" "99"
    (by decide) rfl (by decide) rfl (by decide) rfl (by decide)
    rfl (by decide) rfl (by decide) rfl (by decide)

/-! ## Splitting and joining lemmas for the query parser -/

theorem splitOnChar_cons (c x : Char) (xs : List Char) :
    splitOnChar c (x :: xs) =
      if x = c then [] :: splitOnChar c xs
      else
        match splitOnChar c xs with
        | [] => [[x]]
        | r :: rs => (x :: r) :: rs := rfl

theorem splitOnChar_ne_nil (c : Char) (l : List Char) :
    splitOnChar c l ≠ [] := by
  cases l with
  | nil => simp [splitOnChar]
  | cons x xs =>
    rw [splitOnChar_cons]
    by_cases hx : x = c
    · simp [hx]
    · rw [if_neg hx]
      cases splitOnChar c xs <;> simp

theorem splitOnChar_no_sep (c : Char) (l : List Char) (h : c ∉ l) :
    splitOnChar c l = [l] := by
  induction l with
  | nil => rfl
  | cons x xs ih =>
    have hx : ¬x = c := fun hxc => h (hxc ▸ List.mem_cons_self x xs)
    have hxs : c ∉ xs := fun hm => h (List.mem_cons_of_mem x hm)
    rw [splitOnChar_cons, if_neg hx, ih hxs]

theorem splitOnChar_append_sep (c : Char) (a b : List Char) (h : c ∉ a) :
    splitOnChar c (a ++ c :: b) = a :: splitOnChar c b := by
  induction a with
  | nil => simp [splitOnChar_cons]
  | cons x xs ih =>
    have hx : ¬x = c := fun hxc => h (hxc ▸ List.mem_cons_self x xs)
    have hxs : c ∉ xs := fun hm => h (List.mem_cons_of_mem x hm)
    rw [List.cons_append, splitOnChar_cons, if_neg hx, ih hxs]

theorem joinWith_splitOnChar (c : Char) (l : List Char) :
    joinWith c (splitOnChar c l) = l := by
  induction l with
  | nil => rfl
  | cons x xs ih =>
    rw [splitOnChar_cons]
    by_cases hx : x = c
    · rw [if_pos hx]
      obtain ⟨r, rs, hr⟩ := List.exists_cons_of_ne_nil (splitOnChar_ne_nil c xs)
      rw [hr] at ih ⊢
      subst hx
      simpa [joinWith] using ih
    · rw [if_neg hx]
      obtain ⟨r, rs, hr⟩ := List.exists_cons_of_ne_nil (splitOnChar_ne_nil c xs)
      rw [hr] at ih ⊢
      cases rs with
      | nil => simpa [joinWith] using ih
      | cons r2 rs2 =>
        simp only [joinWith] at ih ⊢
        rw [← ih]
        simp

/-! ## Per-piece behaviour of the query parser -/

theorem parsePieces_nil (params : URLParams) :
    parsePieces params [] = some params := rfl

theorem parsePieces_cons (params : URLParams) (p : List Char)
    (rest : List (List Char)) :
    parsePieces params (p :: rest) =
      match parsePiece params p with
      | none => none
      | some params2 => parsePieces params2 rest := rfl

theorem parsePiece_keyval (params : URLParams) (k v dk dv : List Char)
    (hknil : k ≠ []) (hkeq : '=' ∉ k)
    (hdk : decodeList k = some dk)
    (hvnil : v ≠ []) (hdv : decodeList v = some dv) :
    parsePiece params (k ++ '=' :: v) =
      some (setParam params (String.mk dk) (String.mk dv)) := by
  unfold parsePiece
  rw [splitOnChar_append_sep '=' k v hkeq]
  dsimp only
  rw [if_neg hknil, hdk]
  dsimp only
  rw [joinWith_splitOnChar '=' v, if_neg hvnil, hdv]

theorem parsePiece_keyonly (params : URLParams) (k dk : List Char)
    (hknil : k ≠ []) (hkeq : '=' ∉ k) (hdk : decodeList k = some dk) :
    parsePiece params k =
      some (setParam params (String.mk dk) (String.mk [])) := by
  unfold parsePiece
  rw [splitOnChar_no_sep '=' k hkeq]
  dsimp only
  rw [if_neg hknil, hdk]
  rfl

theorem parsePiece_empty_key (params : URLParams) (v : List Char) :
    parsePiece params ('=' :: v) = some params := by
  unfold parsePiece
  rw [splitOnChar_cons, if_pos rfl]
  rfl

theorem setParam_overwrite (k v1 v2 : String) :
    setParam (setParam [] k v1) k v2 = [(k, v2)] := by
  show setParam [(k, v1)] k v2 = [(k, v2)]
  unfold setParam
  rw [if_pos rfl]

/-! ## C8 -/

/-- C8 counterexample: the claim says a key with no `=` maps to the empty
string; but the `length <= 1` guard swallows the one-character query `a`
(yielding the empty map instead of mapping `a` to the empty string), and a
pair whose key is empty is skipped rather than mapped. -/
theorem c8_counterexample :
    parseURLParams "a" = some [] ∧
    parseURLParams "a" ≠ some [("a", "")] ∧
    parseURLParams "?=x" = some [] := by
  refine ⟨rfl, ?_, rfl⟩
  decide

/-- C8 amended: for query strings of length at least two, `parseURLParams`
strips one leading `?`, splits on `&`, splits each pair on the first `=`
only (later `=` characters stay verbatim in the value), percent-decodes key
and value independently, maps a non-empty key with no `=` to the empty
string, skips a pair whose key is empty, and lets the last occurrence win
when a key repeats; any input of length at most one yields the empty map. -/
theorem c8_amended_query_parsing (k v1 v2 dk dv1 dv2 : List Char)
    (hknil : k ≠ []) (hkamp : '&' ∉ k) (hkeq : '=' ∉ k)
    (hv1amp : '&' ∉ v1) (hv2amp : '&' ∉ v2)
    (hv1nil : v1 ≠ []) (hv2nil : v2 ≠ [])
    (hdk : decodeList k = some dk)
    (hdv1 : decodeList v1 = some dv1) (hdv2 : decodeList v2 = some dv2) :
    parseSearch ('?' :: k) = some [(String.mk dk, String.mk [])] ∧
    parseSearch ('?' :: (k ++ '=' :: v1)) =
      some [(String.mk dk, String.mk dv1)] ∧
    parseSearch ('?' :: ((k ++ '=' :: v1) ++ '&' :: (k ++ '=' :: v2))) =
      some [(String.mk dk, String.mk dv2)] ∧
    (∀ v : List Char, '&' ∉ v →
      parseSearch ('?' :: '=' :: v) = some []) ∧
    (∀ s : String, s.length ≤ 1 → parseURLParams s = some []) ∧
    (∀ s : String, parseURLParams s = parseSearch s.data) := by
  have hlen : ∀ l : List Char, l ≠ [] → ¬(('?' :: l).length ≤ 1) := by
    intro l hl hle
    cases l with
    | nil => exact hl rfl
    | cons a as => simp at hle
  have hamp1 : '&' ∉ k ++ '=' :: v1 := by
    intro hm
    rcases List.mem_append.mp hm with h | h
    · exact hkamp h
    · rcases List.mem_cons.mp h with h | h
      · exact absurd h (by decide)
      · exact hv1amp h
  have hamp2 : '&' ∉ k ++ '=' :: v2 := by
    intro hm
    rcases List.mem_append.mp hm with h | h
    · exact hkamp h
    · rcases List.mem_cons.mp h with h | h
      · exact absurd h (by decide)
      · exact hv2amp h
  refine ⟨?_, ?_, ?_, ?_, ?_, fun s => rfl⟩
  · rw [parseSearch, if_neg (hlen k hknil)]
    rw [splitOnChar_no_sep '&' k hkamp]
    rw [parsePieces_cons, parsePiece_keyonly [] k dk hknil hkeq hdk]
    rfl
  · have hnil : k ++ '=' :: v1 ≠ [] := by simp
    rw [parseSearch, if_neg (hlen _ hnil)]
    rw [splitOnChar_no_sep '&' _ hamp1]
    rw [parsePieces_cons,
      parsePiece_keyval [] k v1 dk dv1 hknil hkeq hdk hv1nil hdv1]
    rfl
  · have hnil : (k ++ '=' :: v1) ++ '&' :: (k ++ '=' :: v2) ≠ [] := by simp
    rw [parseSearch, if_neg (hlen _ hnil)]
    rw [splitOnChar_append_sep '&' _ _ hamp1]
    rw [splitOnChar_no_sep '&' _ hamp2]
    rw [parsePieces_cons,
      parsePiece_keyval [] k v1 dk dv1 hknil hkeq hdk hv1nil hdv1]
    dsimp only
    rw [parsePieces_cons,
      parsePiece_keyval _ k v2 dk dv2 hknil hkeq hdk hv2nil hdv2]
    dsimp only
    rw [setParam_overwrite]
    rfl
  · intro v hvamp
    have hnil : ('=' :: v) ≠ [] := by simp
    rw [parseSearch, if_neg (hlen _ hnil)]
    rw [splitOnChar_no_sep '&' _ (by
      intro hm
      rcases List.mem_cons.mp hm with h | h
      · exact absurd h (by decide)
      · exact hvamp h)]
    rw [parsePieces_cons, parsePiece_empty_key [] v]
    rfl
  · intro s hs
    unfold parseURLParams parseSearch
    rw [if_pos (show s.data.length ≤ 1 from hs)]

/-- C8 witness: a percent-encoded key, a value containing a literal `=`, and
a repeated key whose second, percent-encoded value wins. -/
theorem c8_witness :
    parseSearch ('?' :: "a%20b".data) =
      some [(String.mk "a b".data, String.mk [])] ∧
    parseSearch ('?' :: ("a%20b".data ++ '=' :: "x=1".data)) =
      some [(String.mk "a b".data, String.mk "x=1".data)] ∧
    parseSearch ('?' :: (("a%20b".data ++ '=' :: "x=1".data) ++
        '&' :: ("a%20b".data ++ '=' :: "c%3d2".data))) =
      some [(String.mk "a b".data, String.mk "c=2".data)] ∧
    (∀ v : List Char, '&' ∉ v →
      parseSearch ('?' :: '=' :: v) = some []) ∧
    (∀ s : String, s.length ≤ 1 → parseURLParams s = some []) ∧
    (∀ s : String, parseURLParams s = parseSearch s.data) :=
  c8_amended_query_parsing "a%20b".data "x=1".data "c%3d2".data
    "a b".data "x=1".data "c=2".data
    (by decide) (by decide) (by decide) (by decide) (by decide)
    (by decide) (by decide) (by decide) (by decide) (by decide)

/-! ## C3 -/

/-- C3 evaluation at the failing input: the piece `a=%` has a truthy value
`%`, whose `decodeURIComponent` throws `URIError` (modelled by `none`), so
`parseURLParams` itself throws instead of degrading to a best-effort map. -/
theorem c3_parse_throws_on_malformed_escape :
    parseURLParams "?a=%" = none ∧ decodeURIComponentModel "%" = none :=
  ⟨rfl, rfl⟩
